import Mathlib

/-!
Verification of the fast-langdetect repository against its specification.

This file gives a shallow embedding, in Lean 4, of the parts of the
repository that the checked claims are about:

* `src/src/fast_langdetect/infer.py` — the `LangDetectConfig` record, the
  `LangDetector` model cache and fallback logic (`_get_model`), the text
  pipeline (`_preprocess_text`, `_normalize_text`), and the two detection
  operations (`detect`, `detect_multilingual`).  External effects (the
  fasttext loader, the downloader, the classifier's `predict`) are passed in
  as oracle functions in a `LoadEnv` record; errors are modelled by the
  `PyErr` type and `Except`.
* `src/src/fast_langdetect/split/__init__.py` — the segmenter
  (`Parse._merge_cell`, `Parse.create_cell`).  The sentence cutter
  (`CutSentence`, in `split/cut.py`) and the per-chunk detector
  (`detect_text`, in `ft_detect/__init__.py`) are not part of the provided
  sources; following the specification they are treated as external
  collaborators and passed in as function parameters.

Python strings are modelled by Lean `String` (a list of unicode
code points, so Python `len` is `String.length`).  Character-class
functions (`str.isupper`, `str.lower`, the regular expressions `[A-Z]` and
`[A-Za-z]`) are modelled on the ASCII range, which is the range the
specification's claims quantify over.  Python floats in the normalization
threshold are modelled by exact rationals (`0.8 * n` as `4 * n / 5`);
classifier confidence scores are modelled as rationals.
-/

namespace FastLangdetect

/-! ### Python string primitives -/

/-- Python `text.replace("\n", " ")`: for the one-character pattern this is
exactly the character-wise map sending a newline to a space. -/
def pyReplaceNewline (s : String) : String :=
  String.mk (s.data.map fun c => if c = '\n' then ' ' else c)

/-- Python `"".join(l)`: concatenation of a list of strings. -/
def strJoin (l : List String) : String :=
  String.mk (l.map String.data).flatten

/-- Python `sum(len(c) for c in l)`: the summed lengths of a list of
strings. -/
def sumLens (l : List String) : Nat :=
  (l.map String.length).sum

/-- A cased character, on the ASCII range: a basic Latin letter. -/
def casedChar (c : Char) : Bool := c.isUpper || c.isLower

/-- Python `str.isupper()` on the ASCII range: the text has at least one
cased character and no cased character is lowercase. -/
def pyIsUpper (s : String) : Bool :=
  s.data.any casedChar && s.data.all fun c => !casedChar c || c.isUpper

/-- Number of matches of the regular expression `[A-Z]` in the text
(`len(re.findall(r'[A-Z]', text))`). -/
def countUpper (s : String) : Nat := (s.data.filter Char.isUpper).length

/-- Number of matches of the regular expression `[A-Za-z]` in the text
(`len(re.findall(r'[A-Za-z]', text))`). -/
def countLetters (s : String) : Nat := (s.data.filter casedChar).length

/-- Python `str.lower()` on the ASCII range: `Char.toLower` maps exactly the
basic Latin capitals to their lowercase forms and fixes everything else. -/
def pyLower (s : String) : String := String.mk (s.data.map Char.toLower)

/-- Fuel-bounded fixed-size slicing,
`[s[i:i+n] for i in range(0, len(s), n)]` for a positive step `n` (the code
only slices a chunk that is strictly longer than the positive cell limit, in
which case a fuel of `s.length` suffices). -/
def sliceF (pat : Nat) : Nat → List Char → List (List Char)
  | 0, _ => []
  | _ + 1, [] => []
  | fuel + 1, c :: cs => (c :: cs).take pat :: sliceF pat fuel ((c :: cs).drop pat)

/-- Hard-slicing a string into consecutive windows of at most `n`
characters, as in `Parse.create_cell`
(src/src/fast_langdetect/split/__init__.py line 55). -/
def sliceChunks (n : Nat) (s : String) : List String :=
  (sliceF n s.data.length s.data).map String.mk

/-- Does `pat` occur as a contiguous run inside `s`? -/
def hasSub (pat : List Char) : List Char → Bool
  | [] => pat.isPrefixOf ([] : List Char)
  | c :: cs => pat.isPrefixOf (c :: cs) || hasSub pat cs

/-- Fuel-bounded Python `s.replace(pat, "")` for a non-empty pattern: scan
left to right, removing each non-overlapping occurrence.  A fuel of
`s.length` suffices for a non-empty pattern. -/
def removeAllF (pat : List Char) : Nat → List Char → List Char
  | _, [] => []
  | 0, s => s
  | fuel + 1, c :: cs =>
    if pat.isPrefixOf (c :: cs) then removeAllF pat fuel ((c :: cs).drop pat.length)
    else c :: removeAllF pat fuel cs

/-- The classifier-internal label marker, `"__label__"` as a character
list. -/
def labelMark : List Char := ['_', '_', 'l', 'a', 'b', 'e', 'l', '_', '_']

/-- Python `label.replace("__label__", "")` as used by `LangDetector.detect`
and `LangDetector.detect_multilingual`
(src/src/fast_langdetect/infer.py lines 346 and 380). -/
def stripLabel (s : String) : String :=
  String.mk (removeAllF labelMark s.data.length s.data)

/-! ### Errors, configuration and detector state (infer.py) -/

/-- The failure classes of the exceptions the external collaborators (the
loader, the downloader, the classifier) can raise, as named by the
specification's error taxonomy: file not found, out of memory, download
failure, loader failure, anything else. -/
inductive PyBase where
  | fileNotFound (msg : String)
  | memoryError (msg : String)
  | downloadError (msg : String)
  | loadError (msg : String)
  | otherError (msg : String)
deriving DecidableEq

/-- Python exception values as surfaced by the embedded code paths: either
an exception of one of the base failure classes, or the repository's
`DetectError`, whose optional `cause` models exception chaining
(`raise ... from e`). -/
inductive PyErr where
  | base (e : PyBase)
  | detectError (msg : String) (cause : Option PyBase)
deriving DecidableEq

instance {eps alpha : Type} [DecidableEq eps] [DecidableEq alpha] :
    DecidableEq (Except eps alpha) := fun x y =>
  match x, y with
  | Except.error a, Except.error b =>
    if h : a = b then Decidable.isTrue (congrArg Except.error h)
    else Decidable.isFalse fun hh => h (Except.error.inj hh)
  | Except.error _, Except.ok _ => Decidable.isFalse fun hh => Except.noConfusion hh
  | Except.ok _, Except.error _ => Decidable.isFalse fun hh => Except.noConfusion hh
  | Except.ok a, Except.ok b =>
    if h : a = b then Decidable.isTrue (congrArg Except.ok h)
    else Decidable.isFalse fun hh => h (Except.ok.inj hh)

/-- An opaque loaded classifier handle.  fasttext model objects are always
truthy in Python, so the cache's truthiness test is modelled by `Option`. -/
abbrev Model := Nat

/-- Module constant `CACHE_DIRECTORY` (src/src/fast_langdetect/infer.py
lines 22-23): the `FTLANG_CACHE` environment override or the system
temporary directory default, modelled as a fixed path constant. -/
def CACHE_DIRECTORY : String := "/tmp/fasttext-langdetect"

/-- Module constant `FASTTEXT_LARGE_MODEL_NAME`. -/
def FASTTEXT_LARGE_MODEL_NAME : String := "lid.176.bin"

/-- Module constant `_LOCAL_SMALL_MODEL_PATH`: the bundled compact model. -/
def LOCAL_SMALL_MODEL_PATH : String := "resources/lid.176.ftz"

/-- Class constant `LangDetector.VERIFY_FASTTEXT_LARGE_MODEL`. -/
def VERIFY_FASTTEXT_LARGE_MODEL : String := "01810bc59c6a3d2b79c79e6336612f65"

/-- The fields of `LangDetectConfig` (src/src/fast_langdetect/infer.py
lines 209-228) after construction. -/
structure LangDetectConfig where
  cache_dir : String
  custom_model_path : Option String
  proxy : Option String
  allow_fallback : Bool
  disable_verify : Bool
  verify_hash : Option String
  normalize_input : Bool
deriving DecidableEq

/-- The mutable state of a `LangDetector` instance: its `config` object and
the per-instance model cache `_models` with its two keys `"low_memory"` and
`"high_memory"`. -/
structure DetectorState where
  config : LangDetectConfig
  modelsLow : Option Model
  modelsHigh : Option Model
deriving DecidableEq

/-- Oracles for the external effects used by `LangDetector`:
`ModelLoader.load_local`, `ModelLoader.load_with_download` and the
classifier's `predict` (in its one-argument form used by `detect` and its
`(k, threshold)` form used by `detect_multilingual`, each returning a pair
of a label list and a score list). -/
structure LoadEnv where
  loadLocal : String → Except PyBase Model
  loadWithDownload : String → Option String → Except PyBase Model
  predictOne : Model → String → Except PyBase (List String × List Rat)
  predictTopK : Model → String → Nat → Rat → Except PyBase (List String × List Rat)

/-- The destination of the large model,
`Path(self.config.cache_dir) / FASTTEXT_LARGE_MODEL_NAME`. -/
def largeModelPath (c : LangDetectConfig) : String :=
  c.cache_dir ++ "/" ++ FASTTEXT_LARGE_MODEL_NAME

/-- The in-place mutation `_get_model` performs on `self.config.verify_hash`
in the branch chosen for the given tier (src/src/fast_langdetect/infer.py
lines 302-311): with a custom model path, `disable_verify` clears the hash;
the small-model branch clears it; the large-model branch fills in the
built-in hash when verification is enabled and no hash is set. -/
def configAfterResolve (c : LangDetectConfig) (low_memory : Bool) : LangDetectConfig :=
  match c.custom_model_path with
  | some _ => if c.disable_verify then { c with verify_hash := none } else c
  | none =>
    if low_memory then { c with verify_hash := none }
    else if c.verify_hash = none ∧ c.disable_verify = false then
      { c with verify_hash := some VERIFY_FASTTEXT_LARGE_MODEL }
    else c

/-- The model-resolution attempt `_get_model` makes for a tier, without the
cache, the fallback handling and the config mutation: custom path loads the
custom file; the low-memory tier loads the bundled small model; the
high-memory tier loads (downloading if needed) the large model. -/
def tierResolve (env : LoadEnv) (c : LangDetectConfig) (low_memory : Bool) : Except PyBase Model :=
  match c.custom_model_path with
  | some p => env.loadLocal p
  | none =>
    if low_memory then env.loadLocal LOCAL_SMALL_MODEL_PATH
    else env.loadWithDownload (largeModelPath c) c.proxy

/-- The cache entry for a tier key (`"low_memory"` / `"high_memory"`). -/
def modelsAt (st : DetectorState) (low_memory : Bool) : Option Model :=
  if low_memory then st.modelsLow else st.modelsHigh

/-- Caching a freshly resolved model under its tier key, together with the
`verify_hash` mutation performed on the way. -/
def insertModel (st : DetectorState) (low_memory : Bool) (m : Model) : DetectorState :=
  if low_memory then
    { st with config := configAfterResolve st.config true, modelsLow := some m }
  else
    { st with config := configAfterResolve st.config false, modelsHigh := some m }

/-- `LangDetector._get_model(low_memory=True)`
(src/src/fast_langdetect/infer.py lines 293-324): cache lookup under
`"low_memory"`, then the custom-path or small-model branch.  The result is
the returned model or raised error, the detector state after the call, and
the number of loader invocations made.  On this tier the
`low_memory is not True` guard makes the except-branch re-raise
`DetectError("Failed to load model") from e` without fallback. -/
def getModelLite (env : LoadEnv) (st : DetectorState) :
    Except PyErr Model × DetectorState × Nat :=
  match st.modelsLow with
  | some m => (Except.ok m, st, 0)
  | none =>
    match st.config.custom_model_path with
    | some p =>
      let cfg := if st.config.disable_verify then { st.config with verify_hash := none }
                 else st.config
      match env.loadLocal p with
      | Except.ok m => (Except.ok m, { st with config := cfg, modelsLow := some m }, 1)
      | Except.error e =>
        (Except.error (PyErr.detectError "Failed to load model" (some e)),
         { st with config := cfg }, 1)
    | none =>
      let cfg := { st.config with verify_hash := none }
      match env.loadLocal LOCAL_SMALL_MODEL_PATH with
      | Except.ok m => (Except.ok m, { st with config := cfg, modelsLow := some m }, 1)
      | Except.error e =>
        (Except.error (PyErr.detectError "Failed to load model" (some e)),
         { st with config := cfg }, 1)

/-- `LangDetector._get_model(low_memory=False)`
(src/src/fast_langdetect/infer.py lines 293-324): cache lookup under
`"high_memory"`, then the custom-path or download-and-load branch; any
exception from the branch falls back to a recursive low-memory resolution
when `allow_fallback` is set, and otherwise becomes
`DetectError("Failed to load model") from e`. -/
def getModelFull (env : LoadEnv) (st : DetectorState) :
    Except PyErr Model × DetectorState × Nat :=
  match st.modelsHigh with
    | some m => (Except.ok m, st, 0)
    | none =>
      match st.config.custom_model_path with
      | some p =>
        let cfg := if st.config.disable_verify then { st.config with verify_hash := none }
                   else st.config
        match env.loadLocal p with
        | Except.ok m => (Except.ok m, { st with config := cfg, modelsHigh := some m }, 1)
        | Except.error e =>
          if st.config.allow_fallback then
            let r := getModelLite env { st with config := cfg }
            (r.1, r.2.1, 1 + r.2.2)
          else
            (Except.error (PyErr.detectError "Failed to load model" (some e)),
             { st with config := cfg }, 1)
      | none =>
        let cfg := if st.config.verify_hash = none ∧ st.config.disable_verify = false then
                     { st.config with verify_hash := some VERIFY_FASTTEXT_LARGE_MODEL }
                   else st.config
        match env.loadWithDownload (largeModelPath st.config) st.config.proxy with
        | Except.ok m => (Except.ok m, { st with config := cfg, modelsHigh := some m }, 1)
        | Except.error e =>
          if st.config.allow_fallback then
            let r := getModelLite env { st with config := cfg }
            (r.1, r.2.1, 1 + r.2.2)
          else
            (Except.error (PyErr.detectError "Failed to load model" (some e)),
             { st with config := cfg }, 1)

/-- `LangDetector._get_model` (src/src/fast_langdetect/infer.py lines
293-324): the `"low_memory"` / `"high_memory"` dispatch on the `low_memory`
argument. -/
def getModel (env : LoadEnv) (st : DetectorState) (low_memory : Bool) :
    Except PyErr Model × DetectorState × Nat :=
  if low_memory then getModelLite env st else getModelFull env st

/-! ### The detection pipeline (infer.py) -/

/-- `LangDetector._preprocess_text` (src/src/fast_langdetect/infer.py lines
245-264): replace embedded newline characters by spaces; the length check
only logs a warning and has no semantic effect. -/
def preprocessText (text : String) : String :=
  if '\n' ∈ text.data then pyReplaceNewline text else text

/-- `LangDetector._normalize_text` (src/src/fast_langdetect/infer.py lines
266-291): when normalization is requested and the text is fully uppercase,
or more than 80 percent of its Latin letters are uppercase and its length
exceeds 5, lowercase the whole text.  The float comparison
`a > 0.8 * b` is modelled exactly as `5 * a > 4 * b`. -/
def normalizeText (text : String) (should_normalize : Bool) : String :=
  if !should_normalize then text
  else if pyIsUpper text ||
          (decide (5 * countUpper text > 4 * countLetters text) && decide (text.length > 5)) then
    pyLower text
  else text

/-- A single-language detection result, `{"lang": ..., "score": ...}`. -/
structure Detection where
  lang : String
  score : Rat
deriving DecidableEq

/-- The descending-score comparison used to model
`sorted(results, key=lambda x: x["score"], reverse=True)`. -/
def scoreGe (a b : Detection) : Prop := b.score ≤ a.score

instance : DecidableRel scoreGe := fun a b => inferInstanceAs (Decidable (b.score ≤ a.score))

instance : IsTotal Detection scoreGe := ⟨fun a b => le_total b.score a.score⟩

instance : IsTrans Detection scoreGe := ⟨fun _ _ _ h₁ h₂ => le_trans h₂ h₁⟩

/-- Python's `sorted` with a reversed key comparison is a stable sort by
descending score; a stable sort's output is unique, so insertion sort gives
the same list. -/
def sortByScoreDesc (l : List Detection) : List Detection :=
  List.insertionSort scoreGe l

/-- `LangDetector.detect` (src/src/fast_langdetect/infer.py lines 326-351):
resolve the model for the tier, preprocess and normalize the text, predict,
and post-process label and score; classifier errors (including an empty
prediction, an `IndexError` in Python) are wrapped in
`DetectError("Language detection failed")`. -/
def detectOp (env : LoadEnv) (st : DetectorState) (text : String) (low_memory : Bool) :
    Except PyErr Detection × DetectorState × Nat :=
  match getModel env st low_memory with
  | (Except.error e, st1, n) => (Except.error e, st1, n)
  | (Except.ok m, st1, n) =>
    let t1 := preprocessText text
    let t2 := normalizeText t1 st1.config.normalize_input
    match env.predictOne m t2 with
    | Except.error e =>
      (Except.error (PyErr.detectError "Language detection failed" (some e)), st1, n)
    | Except.ok (labels, scores) =>
      match labels, scores with
      | l :: _, q :: _ => (Except.ok ⟨stripLabel l, min q 1⟩, st1, n)
      | _, _ =>
        (Except.error
          (PyErr.detectError "Language detection failed" (some (PyBase.otherError "IndexError"))),
         st1, n)

/-- `LangDetector.detect_multilingual` (src/src/fast_langdetect/infer.py
lines 353-388): resolve the model, preprocess and normalize, predict with
`(k, threshold)`, post-process each `(label, score)` pair and sort by
descending score; classifier errors are wrapped in
`DetectError("Multilingual detection failed.")` without a cause. -/
def detectMultiOp (env : LoadEnv) (st : DetectorState) (text : String) (low_memory : Bool)
    (k : Nat) (threshold : Rat) :
    Except PyErr (List Detection) × DetectorState × Nat :=
  match getModel env st low_memory with
  | (Except.error e, st1, n) => (Except.error e, st1, n)
  | (Except.ok m, st1, n) =>
    let t1 := preprocessText text
    let t2 := normalizeText t1 st1.config.normalize_input
    match env.predictTopK m t2 k threshold with
    | Except.error _ =>
      (Except.error (PyErr.detectError "Multilingual detection failed." none), st1, n)
    | Except.ok (labels, scores) =>
      let results := (labels.zip scores).map fun p => Detection.mk (stripLabel p.1) (min p.2 1)
      (Except.ok (sortByScoreDesc results), st1, n)

/-! ### The downloader (infer.py, ModelDownloader) -/

/-- A filesystem path split as the code uses it: `save_path.parent` and
`save_path.name`. -/
structure MPath where
  dir : String
  file : String
deriving DecidableEq

/-- Environment of `ModelDownloader.download`: file existence, directory
existence, and the external `robust_downloader.download` call (returning the
updated file-existence map on success, an exception message on failure).
The `dirExists` field is recorded here because the specification talks about
the existence of the destination directory; the theorems below show the code
never consults it. -/
structure DLEnv where
  fileExists : MPath → Bool
  dirExists : String → Bool
  fetch : String → String → String → Option String → Except String (MPath → Bool)

/-- `ModelDownloader.download` (src/src/fast_langdetect/infer.py lines
72-100): no-op when the destination file exists, otherwise invoke the
external fetch with the destination's parent folder and file name; any
fetch exception is re-raised as `DetectError("Download failed: ...")`. -/
def downloadModel (env : DLEnv) (url : String) (savePath : MPath) (proxy : Option String) :
    Except PyErr Unit :=
  if env.fileExists savePath then Except.ok ()
  else
    match env.fetch url savePath.dir savePath.file proxy with
    | Except.ok _ => Except.ok ()
    | Except.error e =>
      Except.error (PyErr.detectError ("fast-langdetect: Download failed: " ++ e) none)

/-! ### The segmenter (split/__init__.py) -/

/-- A segmenter cell, `{"text": ..., "lang": ..., "length": ...}`.
Modelled from the spec: the per-chunk language is the result of the external
`detect_text` collaborator (absent from the provided sources), an optional
language label where `none` is a detection that produced no result. -/
structure SCell where
  text : String
  lang : Option String
  length : Nat
deriving DecidableEq

/-- A merged cell for a run of chunk texts sharing one language value. -/
def runCell (texts : List String) (lang : Option String) : SCell :=
  ⟨strJoin texts, lang, sumLens texts⟩

/-- The loop of `Parse._merge_cell`
(src/src/fast_langdetect/split/__init__.py lines 19-34): `merged` is the
output list built so far, `cache` the texts of the run being accumulated,
`lastLang` the Python `last_lang` variable (initially `None`). -/
def mergeCellLoop (merged : List SCell) (cache : List String) (lastLang : Option String) :
    List SCell → List SCell
  | [] => if cache = [] then merged else merged ++ [runCell cache lastLang]
  | r :: rest =>
    if r.lang = lastLang then mergeCellLoop merged (cache ++ [r.text]) lastLang rest
    else
      mergeCellLoop (if cache = [] then merged else merged ++ [runCell cache lastLang])
        [r.text] r.lang rest

/-- `Parse._merge_cell` (src/src/fast_langdetect/split/__init__.py lines
13-35). -/
def mergeCell (result : List SCell) : List SCell :=
  mergeCellLoop [] [] none result

/-- The chunk list after sentence cutting and hard-slicing at the cell
limit (src/src/fast_langdetect/split/__init__.py lines 52-58), taking the
cutter's output list as input. -/
def chunkList (cutList : List String) (cell_limit : Nat) : List String :=
  cutList.flatMap fun c => if c.length > cell_limit then sliceChunks cell_limit c else [c]

/-- The labelling loop of `Parse.create_cell`
(src/src/fast_langdetect/split/__init__.py lines 60-67): run the per-chunk
detector on every chunk; without `filter_space` every chunk is kept with
its (possibly absent) language; with `filter_space` only chunks whose
detection produced a (truthy) result are kept. -/
def labelChunks (detectT : String → Option String) (chunks : List String)
    (filter_space : Bool) : List SCell :=
  chunks.filterMap fun c =>
    let lang := detectT c
    if filter_space = false then some ⟨c, lang, c.length⟩
    else
      match lang with
      | some l => some ⟨c, some l, c.length⟩
      | none => none

/-- `Parse.create_cell` (src/src/fast_langdetect/split/__init__.py lines
37-70), parametrized by the two external collaborators.  Modelled from the
spec: `cut` is the sentence cutter `CutSentence.chinese_sentence_cut`
(split/cut.py, absent from the provided sources) and `detectT` the
per-chunk detector `detect_text` (ft_detect/__init__.py, absent from the
provided sources), returning `none` when detection produces no result
(Python falsy). -/
def createCell (cut : String → List String) (detectT : String → Option String)
    (sentence : String) (merge_same : Bool) (cell_limit : Nat) (filter_space : Bool) :
    List SCell :=
  let result := labelChunks detectT (chunkList (cut sentence) cell_limit) filter_space
  if merge_same then mergeCell result else result

/-- Concatenation of the text fields of a cell list, in order. -/
def cellTexts (l : List SCell) : String :=
  strJoin (l.map SCell.text)

/-- Reference description of the merge step, following the run structure of
the input: each maximal run of consecutive chunks whose `lang` values are
equal (the absent value included) becomes one cell whose text is the
concatenation and whose length is the summed character count.  `acc` holds
the texts of the currently open run, `lang` its language value. -/
def groupRunsA (lang : Option String) (acc : List String) : List SCell → List SCell
  | [] => [runCell acc lang]
  | c :: cs =>
    if c.lang = lang then groupRunsA lang (acc ++ [c.text]) cs
    else runCell acc lang :: groupRunsA c.lang [c.text] cs

/-- Grouping a chunk list into maximal same-language runs. -/
def groupRuns : List SCell → List SCell
  | [] => []
  | c :: cs => groupRunsA c.lang [c.text] cs

/-- Agreement of two configurations on every field except `verify_hash`:
the fields the amended claim C2 asserts are never modified. -/
def configAgree (a b : LangDetectConfig) : Prop :=
  a.cache_dir = b.cache_dir ∧ a.custom_model_path = b.custom_model_path ∧
  a.proxy = b.proxy ∧ a.allow_fallback = b.allow_fallback ∧
  a.disable_verify = b.disable_verify ∧ a.normalize_input = b.normalize_input

/-- The uppercase condition in the specification's words: the text is fully
uppercase, or more than 80 percent of its Latin letters are uppercase and
its length exceeds 5. -/
def specUppercaseCond (t : String) : Prop :=
  pyIsUpper t = true ∨ (5 * countUpper t > 4 * countLetters t ∧ t.length > 5)

/-- The uppercase basic Latin letters. -/
def upperChars : List Char := "ABCDEFGHIJKLMNOPQRSTUVWXYZ".data

/-- The uppercase basic Latin letters together with the space character:
the alphabet of an all-uppercase Latin string. -/
def upperSpaceChars : List Char := "ABCDEFGHIJKLMNOPQRSTUVWXYZ ".data

/-! ### Helper lemmas about string joining -/

theorem labelMark_eq_data : labelMark = "__label__".data := rfl


theorem strJoin_nil : strJoin [] = "" := rfl

theorem strJoin_cons (s : String) (l : List String) : strJoin (s :: l) = s ++ strJoin l := by
  cases s
  rfl

theorem strJoin_append (l₁ l₂ : List String) :
    strJoin (l₁ ++ l₂) = strJoin l₁ ++ strJoin l₂ := by
  induction l₁ with
  | nil =>
    show strJoin l₂ = "" ++ strJoin l₂
    cases h : strJoin l₂
    rfl
  | cons s l ih => simp [strJoin_cons, ih, String.append_assoc]

theorem strJoin_singleton (s : String) : strJoin [s] = s := by
  rw [strJoin_cons, strJoin_nil]
  exact String.append_empty s

theorem sumLens_cons (s : String) (l : List String) :
    sumLens (s :: l) = s.length + sumLens l := by
  simp [sumLens]

theorem length_strJoin (l : List String) : (strJoin l).length = sumLens l := by
  induction l with
  | nil => rfl
  | cons s l ih => rw [strJoin_cons, String.length_append, ih, sumLens_cons]

/-! ### Helper lemmas about the merge step -/

theorem cellTexts_nil : cellTexts [] = "" := rfl

theorem cellTexts_cons (c : SCell) (l : List SCell) :
    cellTexts (c :: l) = c.text ++ cellTexts l := by
  simp [cellTexts, strJoin_cons]

theorem mergeCellLoop_eq_groupRunsA (rest : List SCell) :
    ∀ (merged : List SCell) (cache : List String) (lastLang : Option String), cache ≠ [] →
      mergeCellLoop merged cache lastLang rest = merged ++ groupRunsA lastLang cache rest := by
  induction rest with
  | nil =>
    intro merged cache lastLang h
    simp [mergeCellLoop, groupRunsA, h]
  | cons r rest ih =>
    intro merged cache lastLang h
    by_cases hl : r.lang = lastLang
    · rw [mergeCellLoop, if_pos hl, groupRunsA, if_pos hl]
      exact ih merged (cache ++ [r.text]) lastLang (by simp)
    · rw [mergeCellLoop, if_neg hl, if_neg h, groupRunsA, if_neg hl]
      rw [ih _ [r.text] r.lang (by simp)]
      simp

theorem mergeCell_eq_groupRuns (l : List SCell) : mergeCell l = groupRuns l := by
  cases l with
  | nil => rfl
  | cons c cs =>
    show mergeCellLoop [] [] none (c :: cs) = groupRuns (c :: cs)
    rw [groupRuns]
    by_cases hl : c.lang = none
    · rw [mergeCellLoop, if_pos hl, hl]
      simpa using mergeCellLoop_eq_groupRunsA cs [] [c.text] none (by simp)
    · rw [mergeCellLoop, if_neg hl, if_pos rfl]
      simpa using mergeCellLoop_eq_groupRunsA cs [] [c.text] c.lang (by simp)

theorem groupRunsA_head_lang (l : List SCell) :
    ∀ (lang : Option String) (acc : List String),
      ∃ c tl, groupRunsA lang acc l = c :: tl ∧ c.lang = lang := by
  induction l with
  | nil => intro lang acc; exact ⟨runCell acc lang, [], rfl, rfl⟩
  | cons c cs ih =>
    intro lang acc
    by_cases h : c.lang = lang
    · rw [groupRunsA, if_pos h]
      exact ih lang (acc ++ [c.text])
    · exact ⟨runCell acc lang, _, by rw [groupRunsA, if_neg h], rfl⟩

theorem groupRunsA_chain (l : List SCell) :
    ∀ (lang : Option String) (acc : List String),
      List.Chain' (fun a b : SCell => a.lang ≠ b.lang) (groupRunsA lang acc l) := by
  induction l with
  | nil => intro lang acc; simp [groupRunsA]
  | cons c cs ih =>
    intro lang acc
    by_cases h : c.lang = lang
    · rw [groupRunsA, if_pos h]
      exact ih lang (acc ++ [c.text])
    · rw [groupRunsA, if_neg h]
      obtain ⟨d, tl, hdt, hdl⟩ := groupRunsA_head_lang cs c.lang [c.text]
      rw [hdt, List.chain'_cons]
      constructor
      · show (runCell acc lang).lang ≠ d.lang
        rw [hdl]
        exact fun hh => h hh.symm
      · rw [← hdt]
        exact ih c.lang [c.text]

theorem cellTexts_groupRunsA (l : List SCell) :
    ∀ (lang : Option String) (acc : List String),
      cellTexts (groupRunsA lang acc l) = strJoin acc ++ cellTexts l := by
  induction l with
  | nil =>
    intro lang acc
    show cellTexts [runCell acc lang] = strJoin acc ++ cellTexts []
    rw [cellTexts_cons, cellTexts_nil]
    rfl
  | cons c cs ih =>
    intro lang acc
    by_cases h : c.lang = lang
    · rw [groupRunsA, if_pos h, ih, cellTexts_cons, strJoin_append, strJoin_singleton,
        String.append_assoc]
    · rw [groupRunsA, if_neg h, cellTexts_cons, ih, strJoin_singleton, cellTexts_cons]
      show strJoin acc ++ (c.text ++ cellTexts cs) = strJoin acc ++ (c.text ++ cellTexts cs)
      rfl

theorem cellTexts_mergeCell (l : List SCell) : cellTexts (mergeCell l) = cellTexts l := by
  rw [mergeCell_eq_groupRuns]
  cases l with
  | nil => rfl
  | cons c cs =>
    rw [groupRuns, cellTexts_groupRunsA, strJoin_singleton, cellTexts_cons]

theorem groupRunsA_length_eq (l : List SCell) :
    ∀ (lang : Option String) (acc : List String),
      ∀ x ∈ groupRunsA lang acc l, x.length = x.text.length := by
  induction l with
  | nil =>
    intro lang acc x hx
    rcases List.mem_singleton.mp hx with rfl
    exact (length_strJoin acc).symm
  | cons c cs ih =>
    intro lang acc x hx
    by_cases h : c.lang = lang
    · rw [groupRunsA, if_pos h] at hx
      exact ih lang (acc ++ [c.text]) x hx
    · rw [groupRunsA, if_neg h] at hx
      rcases List.mem_cons.mp hx with rfl | hx
      · exact (length_strJoin acc).symm
      · exact ih c.lang [c.text] x hx

theorem labelChunks_cons_false (detectT : String → Option String) (c : String)
    (cs : List String) :
    labelChunks detectT (c :: cs) false =
      ⟨c, detectT c, c.length⟩ :: labelChunks detectT cs false := rfl

theorem labelChunks_cons_true_none (detectT : String → Option String) (c : String)
    (cs : List String) (hd : detectT c = none) :
    labelChunks detectT (c :: cs) true = labelChunks detectT cs true := by
  simp [labelChunks, List.filterMap_cons, hd]

theorem labelChunks_cons_true_some (detectT : String → Option String) (c : String)
    (cs : List String) (l : String) (hd : detectT c = some l) :
    labelChunks detectT (c :: cs) true =
      ⟨c, some l, c.length⟩ :: labelChunks detectT cs true := by
  simp [labelChunks, List.filterMap_cons, hd]

theorem labelChunks_texts (detectT : String → Option String) (chunks : List String)
    (filter_space : Bool) :
    (labelChunks detectT chunks filter_space).map SCell.text =
      chunks.filter fun c => !filter_space || (detectT c).isSome := by
  cases filter_space with
  | false =>
    induction chunks with
    | nil => rfl
    | cons c cs ih =>
      rw [labelChunks_cons_false, List.map_cons, ih, List.filter_cons]
      simp
  | true =>
    induction chunks with
    | nil => rfl
    | cons c cs ih =>
      cases hd : detectT c with
      | none =>
        rw [labelChunks_cons_true_none detectT c cs hd, ih, List.filter_cons]
        simp [hd]
      | some lang =>
        rw [labelChunks_cons_true_some detectT c cs lang hd, List.map_cons, ih,
          List.filter_cons]
        simp [hd]

theorem labelChunks_length_eq (detectT : String → Option String) (chunks : List String)
    (filter_space : Bool) :
    ∀ x ∈ labelChunks detectT chunks filter_space, x.length = x.text.length := by
  cases filter_space with
  | false =>
    induction chunks with
    | nil => intro x hx; exact absurd hx (List.not_mem_nil x)
    | cons c cs ih =>
      rw [labelChunks_cons_false]
      intro x hx
      rcases List.mem_cons.mp hx with rfl | hx
      · rfl
      · exact ih x hx
  | true =>
    induction chunks with
    | nil => intro x hx; exact absurd hx (List.not_mem_nil x)
    | cons c cs ih =>
      cases hd : detectT c with
      | none =>
        rw [labelChunks_cons_true_none detectT c cs hd]
        exact ih
      | some lang =>
        rw [labelChunks_cons_true_some detectT c cs lang hd]
        intro x hx
        rcases List.mem_cons.mp hx with rfl | hx
        · rfl
        · exact ih x hx

theorem cellTexts_createCell (cut : String → List String) (detectT : String → Option String)
    (sentence : String) (merge_same : Bool) (cell_limit : Nat) (filter_space : Bool) :
    cellTexts (createCell cut detectT sentence merge_same cell_limit filter_space) =
      strJoin ((chunkList (cut sentence) cell_limit).filter
        fun c => !filter_space || (detectT c).isSome) := by
  have hR : cellTexts (labelChunks detectT (chunkList (cut sentence) cell_limit) filter_space) =
      strJoin ((chunkList (cut sentence) cell_limit).filter
        fun c => !filter_space || (detectT c).isSome) := by
    rw [cellTexts, labelChunks_texts]
  cases merge_same with
  | true =>
    show cellTexts (mergeCell _) = _
    rw [cellTexts_mergeCell, hR]
  | false => exact hR

/-! ### Claims about the segmenter -/

/-- Claim C4, counterexample: with `filter_space` off and `merge_same` on,
the chunks `"a"` (detected as English), `"b"` (no result) and `"c"` (no
result) produce two cells, not three: the two consecutive no-language
chunks are merged into the single absent-language cell `"bc"`, and no cell
with text `"b"` exists — contradicting the claim that a chunk with no
detected language never merges with any neighboring chunk. -/
theorem c4_no_language_counterexample :
    createCell (fun _ => ["a", "b", "c"]) (fun s => if s = "a" then some "en" else none)
        "abc" true 150 false =
      [⟨"a", some "en", 1⟩, ⟨"bc", none, 2⟩] ∧
    (⟨"b", none, 1⟩ : SCell) ∉
      createCell (fun _ => ["a", "b", "c"]) (fun s => if s = "a" then some "en" else none)
        "abc" true 150 false := by
  decide

/-- Claim C4 (amended): with `merge_same` on, the merge step groups the
chunk list into maximal runs of equal language value — so a no-language
chunk is emitted with an absent language, never merges with a
language-labeled chunk, and terminates any in-progress merge run of
labeled chunks (adjacent output cells always carry different language
values); however, consecutive no-language chunks merge with each other
into one absent-language cell, because the absent values compare equal. -/
theorem c4_merge_amended (result : List SCell) :
    mergeCell result = groupRuns result ∧
    List.Chain' (fun a b : SCell => a.lang ≠ b.lang) (mergeCell result) := by
  refine ⟨mergeCell_eq_groupRuns result, ?_⟩
  rw [mergeCell_eq_groupRuns]
  cases result with
  | nil => simp [groupRuns]
  | cons c cs => exact groupRunsA_chain cs c.lang [c.text]

/-- Claim C5, counterexample: with the default `filter_space = true`, a
chunk whose detection produced no result is dropped before the merge, so
concatenating the returned cell texts does not reconstruct the
concatenation of the length-limited chunk list: for the single chunk
`" "` with no detected language the cells concatenate to `""`, not
`" "`. -/
theorem c5_partition_counterexample :
    cellTexts (createCell (fun _ => [" "]) (fun _ => none) " " true 150 true) ≠
      strJoin (chunkList [" "] 150) := by
  decide

/-- Claim C5 (amended): concatenating the text fields of the cells
returned by the segmenter, in order, reconstructs exactly the
concatenation of those length-limited chunks that survive the empty-result
filter (all chunks when `filter_space` is off, only chunks whose detection
produced a result when it is on); in particular with `filter_space = false`
the concatenation is exactly the chunked input, and the merge step itself
never drops, duplicates or reorders characters. -/
theorem c5_partition_amended (cut : String → List String) (detectT : String → Option String)
    (sentence : String) (merge_same : Bool) (cell_limit : Nat) (filter_space : Bool) :
    cellTexts (createCell cut detectT sentence merge_same cell_limit filter_space) =
      strJoin ((chunkList (cut sentence) cell_limit).filter
        fun c => !filter_space || (detectT c).isSome) ∧
    cellTexts (createCell cut detectT sentence merge_same cell_limit false) =
      strJoin (chunkList (cut sentence) cell_limit) ∧
    ∀ l : List SCell, cellTexts (mergeCell l) = cellTexts l := by
  refine ⟨cellTexts_createCell cut detectT sentence merge_same cell_limit filter_space,
    ?_, cellTexts_mergeCell⟩
  rw [cellTexts_createCell cut detectT sentence merge_same cell_limit false]
  simp

/-- Claim C10: every cell returned by the segmenter, merged or not,
satisfies `length = len(text)`: an unmerged cell's length is its chunk's
character count, and a merged cell's length is the summed length of its
merged chunks, which equals the length of its concatenated text. -/
theorem c10_cell_length_invariant (cut : String → List String)
    (detectT : String → Option String) (sentence : String) (merge_same : Bool)
    (cell_limit : Nat) (filter_space : Bool) :
    ∀ cell ∈ createCell cut detectT sentence merge_same cell_limit filter_space,
      cell.length = cell.text.length := by
  intro cell hcell
  cases merge_same with
  | true =>
    simp only [createCell, if_pos rfl] at hcell
    rw [mergeCell_eq_groupRuns] at hcell
    cases hR : labelChunks detectT (chunkList (cut sentence) cell_limit) filter_space with
    | nil =>
      rw [hR] at hcell
      exact absurd hcell (by simp [groupRuns])
    | cons c cs =>
      rw [hR] at hcell
      simp only [groupRuns] at hcell
      exact groupRunsA_length_eq cs c.lang [c.text] cell hcell
  | false =>
    simp only [createCell] at hcell
    exact labelChunks_length_eq detectT (chunkList (cut sentence) cell_limit) filter_space
      cell hcell

/-- Witness for claim C10 at a concrete input. -/
theorem c10_cell_length_witness :
    (⟨"ab", some "en", 2⟩ : SCell).length = (⟨"ab", some "en", 2⟩ : SCell).text.length :=
  c10_cell_length_invariant (fun _ => ["ab"]) (fun _ => some "en") "ab" true 150 true
    ⟨"ab", some "en", 2⟩ (by decide)

/-! ### Helper lemmas about configuration agreement and model resolution -/

theorem configAgree_refl (a : LangDetectConfig) : configAgree a a :=
  ⟨rfl, rfl, rfl, rfl, rfl, rfl⟩

theorem configAgree_trans {a b c : LangDetectConfig} (h₁ : configAgree a b)
    (h₂ : configAgree b c) : configAgree a c := by
  obtain ⟨h₁a, h₁b, h₁c, h₁d, h₁e, h₁f⟩ := h₁
  obtain ⟨h₂a, h₂b, h₂c, h₂d, h₂e, h₂f⟩ := h₂
  exact ⟨h₁a.trans h₂a, h₁b.trans h₂b, h₁c.trans h₂c, h₁d.trans h₂d, h₁e.trans h₂e,
    h₁f.trans h₂f⟩

theorem configAgree_setVerify (a : LangDetectConfig) (v : Option String) :
    configAgree a { a with verify_hash := v } :=
  ⟨rfl, rfl, rfl, rfl, rfl, rfl⟩

theorem configAgree_customCfg (c : LangDetectConfig) :
    configAgree c (if c.disable_verify then { c with verify_hash := none } else c) := by
  by_cases hd : c.disable_verify = true
  · rw [if_pos hd]
    exact configAgree_setVerify c none
  · rw [if_neg hd]
    exact configAgree_refl c

theorem configAgree_fullCfg (c : LangDetectConfig) :
    configAgree c (if c.verify_hash = none ∧ c.disable_verify = false then
      { c with verify_hash := some VERIFY_FASTTEXT_LARGE_MODEL } else c) := by
  by_cases hd : c.verify_hash = none ∧ c.disable_verify = false
  · rw [if_pos hd]
    exact configAgree_setVerify c _
  · rw [if_neg hd]
    exact configAgree_refl c

theorem getModelLite_state (env : LoadEnv) (st : DetectorState) :
    ((getModelLite env st).2.1).modelsHigh = st.modelsHigh ∧
    configAgree st.config ((getModelLite env st).2.1).config := by
  unfold getModelLite
  repeat' split
  all_goals exact ⟨rfl, configAgree_refl st.config⟩

theorem getModelFull_config_agree (env : LoadEnv) (st : DetectorState) :
    configAgree st.config ((getModelFull env st).2.1).config := by
  unfold getModelFull
  repeat' split
  all_goals first
    | exact configAgree_refl st.config
    | exact configAgree_setVerify st.config none
    | exact configAgree_setVerify st.config (some VERIFY_FASTTEXT_LARGE_MODEL)
    | exact configAgree_trans (configAgree_setVerify st.config none)
        (getModelLite_state env
          { st with config := { st.config with verify_hash := none } }).2
    | exact configAgree_trans
        (configAgree_setVerify st.config (some VERIFY_FASTTEXT_LARGE_MODEL))
        (getModelLite_state env
          { st with config :=
              { st.config with verify_hash := some VERIFY_FASTTEXT_LARGE_MODEL } }).2
    | exact (getModelLite_state env st).2

theorem getModel_config_agree (env : LoadEnv) (st : DetectorState) (lm : Bool) :
    configAgree st.config ((getModel env st lm).2.1).config := by
  cases lm with
  | true => exact (getModelLite_state env st).2
  | false => exact getModelFull_config_agree env st

theorem detectOp_state (env : LoadEnv) (st : DetectorState) (text : String) (lm : Bool) :
    (detectOp env st text lm).2.1 = (getModel env st lm).2.1 := by
  rcases hg : getModel env st lm with ⟨r, st1, n⟩
  cases r with
  | error e => simp [detectOp, hg]
  | ok m =>
    simp only [detectOp, hg]
    cases hp : env.predictOne m
        (normalizeText (preprocessText text) st1.config.normalize_input) with
    | error e => rfl
    | ok pr =>
      rcases pr with ⟨labels, scores⟩
      cases labels with
      | nil => rfl
      | cons l ls =>
        cases scores with
        | nil => rfl
        | cons q qs => rfl

theorem detectMultiOp_state (env : LoadEnv) (st : DetectorState) (text : String) (lm : Bool)
    (k : Nat) (threshold : Rat) :
    (detectMultiOp env st text lm k threshold).2.1 = (getModel env st lm).2.1 := by
  rcases hg : getModel env st lm with ⟨r, st1, n⟩
  cases r with
  | error e => simp [detectMultiOp, hg]
  | ok m =>
    simp only [detectMultiOp, hg]
    cases hp : env.predictTopK m
        (normalizeText (preprocessText text) st1.config.normalize_input) k threshold with
    | error e => rfl
    | ok pr =>
      rcases pr with ⟨labels, scores⟩
      rfl

/-! ### Claims about configuration immutability (C2) -/

/-- Claim C2, counterexample: resolving the low-memory model mutates the
config object in place — with `verify_hash` set to `"abc"` before the call,
`_get_model(low_memory=True)` overwrites `self.config.verify_hash` with
`None` (src/src/fast_langdetect/infer.py line 306), so the configuration is
not immutable after construction. -/
theorem c2_config_mutation_counterexample :
    ((getModel
        { loadLocal := fun _ => Except.ok 7,
          loadWithDownload := fun _ _ => Except.ok 7,
          predictOne := fun _ _ => Except.ok ([], []),
          predictTopK := fun _ _ _ _ => Except.ok ([], []) }
        { config :=
            { cache_dir := "/tmp/fasttext-langdetect", custom_model_path := none,
              proxy := none, allow_fallback := true, disable_verify := false,
              verify_hash := some "abc", normalize_input := true },
          modelsLow := none, modelsHigh := none }
        true).2.1).config.verify_hash = none ∧
    (some "abc" : Option String) ≠ (none : Option String) := by
  decide

/-- Claim C2 (amended): after any `_get_model`, `detect` or
`detect_multilingual` call, the detector's config agrees with the config
before the call on every field except `verify_hash` (`cache_dir`,
`custom_model_path`, `proxy`, `allow_fallback`, `disable_verify`,
`normalize_input` are never modified); `verify_hash` alone can be rewritten
in place during model resolution. -/
theorem c2_config_amended (env : LoadEnv) (st : DetectorState) (lm : Bool) (text : String)
    (k : Nat) (threshold : Rat) :
    configAgree st.config ((getModel env st lm).2.1).config ∧
    configAgree st.config ((detectOp env st text lm).2.1).config ∧
    configAgree st.config ((detectMultiOp env st text lm k threshold).2.1).config := by
  refine ⟨getModel_config_agree env st lm, ?_, ?_⟩
  · rw [detectOp_state]
    exact getModel_config_agree env st lm
  · rw [detectMultiOp_state]
    exact getModel_config_agree env st lm

/-! ### Helper lemmas about cache hits and insertions -/

theorem getModelLite_hit (env : LoadEnv) (st : DetectorState) (m : Model)
    (h : st.modelsLow = some m) : getModelLite env st = (Except.ok m, st, 0) := by
  unfold getModelLite
  rw [h]

theorem getModelFull_hit (env : LoadEnv) (st : DetectorState) (m : Model)
    (h : st.modelsHigh = some m) : getModelFull env st = (Except.ok m, st, 0) := by
  unfold getModelFull
  rw [h]

theorem getModelLite_insert (env : LoadEnv) (st : DetectorState) (m : Model)
    (h : st.modelsLow = none) (hres : tierResolve env st.config true = Except.ok m) :
    getModelLite env st = (Except.ok m, insertModel st true m, 1) := by
  simp only [tierResolve] at hres
  simp only [getModelLite]
  rw [h]
  cases hcp : st.config.custom_model_path with
  | some p =>
    rw [hcp] at hres
    have hres2 : env.loadLocal p = Except.ok m := hres
    simp [hcp, hres2, insertModel, configAfterResolve]
  | none =>
    rw [hcp] at hres
    have hres2 : env.loadLocal LOCAL_SMALL_MODEL_PATH = Except.ok m := hres
    simp [hcp, hres2, insertModel, configAfterResolve]

theorem getModelFull_insert (env : LoadEnv) (st : DetectorState) (m : Model)
    (h : st.modelsHigh = none) (hres : tierResolve env st.config false = Except.ok m) :
    getModelFull env st = (Except.ok m, insertModel st false m, 1) := by
  simp only [tierResolve] at hres
  simp only [getModelFull]
  rw [h]
  cases hcp : st.config.custom_model_path with
  | some p =>
    rw [hcp] at hres
    have hres2 : env.loadLocal p = Except.ok m := hres
    simp [hcp, hres2, insertModel, configAfterResolve]
  | none =>
    rw [hcp] at hres
    have hres2 : env.loadWithDownload (largeModelPath st.config) st.config.proxy =
        Except.ok m := hres
    simp [hcp, hres2, insertModel, configAfterResolve]

/-! ### Claim C6: per-tier caching -/

/-- Claim C6: per detector instance and tier, at most one load happens on
the success path — a cache hit returns the identical cached handle with
zero loader invocations and an unchanged state, and when the tier is not
cached and its resolution succeeds, the handle is inserted under that tier
key with exactly one loader invocation, after which every subsequent
request for the same tier (under any environment) returns the identical
handle with zero loader invocations. -/
theorem c6_cache_reuse (env : LoadEnv) (st : DetectorState) (lm : Bool) (m : Model) :
    (modelsAt st lm = some m → getModel env st lm = (Except.ok m, st, 0)) ∧
    (modelsAt st lm = none → tierResolve env st.config lm = Except.ok m →
      getModel env st lm = (Except.ok m, insertModel st lm m, 1) ∧
      ∀ env2 : LoadEnv, getModel env2 (insertModel st lm m) lm =
        (Except.ok m, insertModel st lm m, 0)) := by
  constructor
  · intro h
    cases lm with
    | true => exact getModelLite_hit env st m h
    | false => exact getModelFull_hit env st m h
  · intro h hres
    cases lm with
    | true =>
      refine ⟨getModelLite_insert env st m h hres, ?_⟩
      intro env2
      exact getModelLite_hit env2 (insertModel st true m) m (by simp [insertModel])
    | false =>
      refine ⟨getModelFull_insert env st m h hres, ?_⟩
      intro env2
      exact getModelFull_hit env2 (insertModel st false m) m (by simp [insertModel])

/-- Witness for claim C6 at concrete inputs: a cache hit and a fresh
insertion. -/
theorem c6_cache_reuse_witness :
    getModel
        { loadLocal := fun _ => Except.ok 5, loadWithDownload := fun _ _ => Except.ok 6,
          predictOne := fun _ _ => Except.ok ([], []),
          predictTopK := fun _ _ _ _ => Except.ok ([], []) }
        { config :=
            { cache_dir := "/tmp/fasttext-langdetect", custom_model_path := none,
              proxy := none, allow_fallback := true, disable_verify := false,
              verify_hash := none, normalize_input := true },
          modelsLow := some 5, modelsHigh := none }
        true =
      (Except.ok 5,
       { config :=
           { cache_dir := "/tmp/fasttext-langdetect", custom_model_path := none,
             proxy := none, allow_fallback := true, disable_verify := false,
             verify_hash := none, normalize_input := true },
         modelsLow := some 5, modelsHigh := none }, 0) ∧
    getModel
        { loadLocal := fun _ => Except.ok 5, loadWithDownload := fun _ _ => Except.ok 6,
          predictOne := fun _ _ => Except.ok ([], []),
          predictTopK := fun _ _ _ _ => Except.ok ([], []) }
        { config :=
            { cache_dir := "/tmp/fasttext-langdetect", custom_model_path := none,
              proxy := none, allow_fallback := true, disable_verify := false,
              verify_hash := none, normalize_input := true },
          modelsLow := none, modelsHigh := none }
        true =
      (Except.ok 5,
       insertModel
         { config :=
             { cache_dir := "/tmp/fasttext-langdetect", custom_model_path := none,
               proxy := none, allow_fallback := true, disable_verify := false,
               verify_hash := none, normalize_input := true },
           modelsLow := none, modelsHigh := none }
         true 5, 1) :=
  ⟨(c6_cache_reuse _ _ true 5).1 (by decide),
   ((c6_cache_reuse _ _ true 5).2 (by decide) (by decide)).1⟩

/-! ### Claim C1: fallback policy -/

/-- Claim C1, counterexample: with `allow_fallback` on, a high-memory
resolution that fails with a download failure — not a memory-class error —
still falls back to the low-memory model: `_get_model` catches every
exception class, so the call returns the small model (handle 7 here) after
two loader invocations, caching it under the low-memory key only. -/
theorem c1_fallback_counterexample :
    getModel
        { loadLocal := fun _ => Except.ok 7,
          loadWithDownload := fun _ _ => Except.error (PyBase.downloadError "retries exhausted"),
          predictOne := fun _ _ => Except.ok ([], []),
          predictTopK := fun _ _ _ _ => Except.ok ([], []) }
        { config :=
            { cache_dir := "/tmp/fasttext-langdetect", custom_model_path := none,
              proxy := none, allow_fallback := true, disable_verify := false,
              verify_hash := none, normalize_input := true },
          modelsLow := none, modelsHigh := none }
        false =
      (Except.ok 7,
       { config :=
           { cache_dir := "/tmp/fasttext-langdetect", custom_model_path := none,
             proxy := none, allow_fallback := true, disable_verify := false,
             verify_hash := none, normalize_input := true },
         modelsLow := some 7, modelsHigh := none }, 2) := by
  decide

/-- Claim C1 (amended): when resolving the Full model fails with any
error — not only a memory-class one — and fallback is allowed, the call
resolves the Lite model instead for that call only: the result is exactly
one Lite resolution on the mutated state, and the high-memory cache key
stays empty, so the next Full request attempts Full resolution again.  When
fallback is disallowed, a `DetectError` chaining the original error
propagates to the caller. -/
theorem c1_fallback_amended (env : LoadEnv) (st : DetectorState) (e : PyBase)
    (hmh : st.modelsHigh = none) (hcp : st.config.custom_model_path = none)
    (herr : env.loadWithDownload (largeModelPath st.config) st.config.proxy =
      Except.error e) :
    (st.config.allow_fallback = true →
      getModel env st false =
        ((getModelLite env { st with config := configAfterResolve st.config false }).1,
         (getModelLite env { st with config := configAfterResolve st.config false }).2.1,
         1 + (getModelLite env { st with config := configAfterResolve st.config false }).2.2) ∧
      ((getModelLite env
          { st with config := configAfterResolve st.config false }).2.1).modelsHigh = none) ∧
    (st.config.allow_fallback = false →
      getModel env st false =
        (Except.error (PyErr.detectError "Failed to load model" (some e)),
         { st with config := configAfterResolve st.config false }, 1)) := by
  have hcfg : configAfterResolve st.config false =
      (if st.config.verify_hash = none ∧ st.config.disable_verify = false then
        { st.config with verify_hash := some VERIFY_FASTTEXT_LARGE_MODEL } else st.config) := by
    unfold configAfterResolve
    simp [hcp]
  constructor
  · intro hf
    constructor
    · show getModelFull env st = _
      simp only [getModelFull]
      rw [hmh]
      dsimp only
      split
      · next p heq =>
          rw [hcp] at heq
          exact Option.noConfusion heq
      · next heq =>
          rw [herr]
          dsimp only
          rw [hcfg, if_pos hf]
    · rw [(getModelLite_state env _).1]
      exact hmh
  · intro hf
    show getModelFull env st = _
    simp only [getModelFull]
    rw [hmh]
    dsimp only
    split
    · next p heq =>
        rw [hcp] at heq
        exact Option.noConfusion heq
    · next heq =>
        rw [herr]
        dsimp only
        rw [hcfg, if_neg (by rw [hf]; exact Bool.false_ne_true)]

/-- Witness for claim C1 at a concrete input: the fallback result leaves
the high-memory key empty. -/
theorem c1_fallback_amended_witness :
    ((getModelLite
        { loadLocal := fun _ => Except.ok 7,
          loadWithDownload := fun _ _ => Except.error (PyBase.downloadError "boom"),
          predictOne := fun _ _ => Except.ok ([], []),
          predictTopK := fun _ _ _ _ => Except.ok ([], []) }
        { config :=
            configAfterResolve
              { cache_dir := "/tmp/fasttext-langdetect", custom_model_path := none,
                proxy := none, allow_fallback := true, disable_verify := false,
                verify_hash := none, normalize_input := true } false,
          modelsLow := none, modelsHigh := none }).2.1).modelsHigh = none :=
  ((c1_fallback_amended
      { loadLocal := fun _ => Except.ok 7,
        loadWithDownload := fun _ _ => Except.error (PyBase.downloadError "boom"),
        predictOne := fun _ _ => Except.ok ([], []),
        predictTopK := fun _ _ _ _ => Except.ok ([], []) }
      { config :=
          { cache_dir := "/tmp/fasttext-langdetect", custom_model_path := none,
            proxy := none, allow_fallback := true, disable_verify := false,
            verify_hash := none, normalize_input := true },
        modelsLow := none, modelsHigh := none }
      (PyBase.downloadError "boom") rfl rfl rfl).1 rfl).2

/-! ### Claim C8: newline handling -/

theorem pyReplaceNewline_no_newline (t : String) : '\n' ∉ (pyReplaceNewline t).data := by
  intro hmem
  have hmem2 : '\n' ∈ t.data.map (fun c => if c = '\n' then ' ' else c) := hmem
  rcases List.mem_map.mp hmem2 with ⟨c, _, hfc⟩
  by_cases h : c = '\n'
  · rw [if_pos h] at hfc
    exact absurd hfc (by decide)
  · rw [if_neg h] at hfc
    exact h hfc

theorem pyReplaceNewline_id (t : String) (h : '\n' ∉ t.data) : pyReplaceNewline t = t := by
  have h2 : t.data.map (fun c => if c = '\n' then ' ' else c) = t.data.map id :=
    List.map_congr_left fun a ha => if_neg (fun hh : a = '\n' => h (hh ▸ ha))
  simp only [pyReplaceNewline]
  rw [h2, List.map_id]

theorem preprocessText_eq (t : String) : preprocessText t = pyReplaceNewline t := by
  by_cases h : '\n' ∈ t.data
  · simp only [preprocessText]
    rw [if_pos h]
  · simp only [preprocessText]
    rw [if_neg h, pyReplaceNewline_id t h]

theorem preprocessText_replace (t : String) :
    preprocessText (pyReplaceNewline t) = pyReplaceNewline t := by
  simp only [preprocessText]
  rw [if_neg (pyReplaceNewline_no_newline t)]

/-- Claim C8: a text with embedded newline characters is detected exactly
like the text with every newline replaced by a space — the whole `detect`
pipeline (model resolution, preprocessing, normalization, prediction,
post-processing) returns the same result for both, so newlines alone never
make the call fail. -/
theorem c8_newline_equivalence (env : LoadEnv) (st : DetectorState) (t : String) (lm : Bool) :
    detectOp env st t lm = detectOp env st (pyReplaceNewline t) lm := by
  have hpp : preprocessText (pyReplaceNewline t) = preprocessText t := by
    rw [preprocessText_replace, preprocessText_eq]
  rcases hg : getModel env st lm with ⟨r, st1, n⟩
  cases r with
  | error e => simp [detectOp, hg]
  | ok m =>
    simp only [detectOp, hg]
    rw [hpp]

/-! ### Claim C7: uppercase normalization -/

theorem upperSpace_not_newline : ∀ c ∈ upperSpaceChars, c ≠ '\n' := by decide

theorem upperSpace_cased_imp_upper :
    ∀ c ∈ upperSpaceChars, (!casedChar c || c.isUpper) = true := by decide

theorem upperSpace_toLower_not_upper :
    ∀ c ∈ upperSpaceChars, (Char.toLower c).isUpper = false := by decide

theorem upperSpace_toLower_ne_newline :
    ∀ c ∈ upperSpaceChars, Char.toLower c ≠ '\n' := by decide

theorem upper_cased : ∀ c ∈ upperChars, casedChar c = true := by decide

theorem upper_toLower_cased_not_upper :
    ∀ c ∈ upperChars, casedChar (Char.toLower c) = true ∧ (Char.toLower c).isUpper = false := by
  decide

theorem normalizeText_true (t : String) :
    normalizeText t true =
      (if pyIsUpper t ||
          (decide (5 * countUpper t > 4 * countLetters t) && decide (t.length > 5)) then
        pyLower t else t) := rfl

theorem pyIsUpper_of_upperSpace (t : String)
    (hAZ : ∀ c ∈ t.data, c ∈ upperSpaceChars)
    (hEx : ∃ c ∈ t.data, c ∈ upperChars) : pyIsUpper t = true := by
  rcases hEx with ⟨c0, hc0, hc0u⟩
  have hany : t.data.any casedChar = true :=
    List.any_eq_true.mpr ⟨c0, hc0, upper_cased c0 hc0u⟩
  have hall : t.data.all (fun c => !casedChar c || c.isUpper) = true :=
    List.all_eq_true.mpr fun c hc => upperSpace_cased_imp_upper c (hAZ c hc)
  simp only [pyIsUpper]
  rw [hany, hall]
  rfl

theorem pyIsUpper_pyLower_false (t : String)
    (hAZ : ∀ c ∈ t.data, c ∈ upperSpaceChars)
    (hEx : ∃ c ∈ t.data, c ∈ upperChars) : pyIsUpper (pyLower t) = false := by
  rcases hEx with ⟨c0, hc0, hc0u⟩
  have hmem : Char.toLower c0 ∈ (pyLower t).data :=
    List.mem_map_of_mem Char.toLower hc0
  have hcw := upper_toLower_cased_not_upper c0 hc0u
  cases hU : pyIsUpper (pyLower t) with
  | false => rfl
  | true =>
    exfalso
    simp only [pyIsUpper] at hU
    rcases (Bool.and_eq_true _ _).mp hU with ⟨_, hall⟩
    have hv := List.all_eq_true.mp hall (Char.toLower c0) hmem
    rw [hcw.1, hcw.2] at hv
    exact absurd hv (by decide)

theorem countUpper_pyLower (t : String)
    (hAZ : ∀ c ∈ t.data, c ∈ upperSpaceChars) : countUpper (pyLower t) = 0 := by
  have hfe : (pyLower t).data.filter Char.isUpper = [] := by
    rw [List.filter_eq_nil_iff]
    intro a ha
    rcases List.mem_map.mp ha with ⟨c, hc, rfl⟩
    simp [upperSpace_toLower_not_upper c (hAZ c hc)]
  simp only [countUpper]
  rw [hfe]
  rfl

theorem normalizeText_pyLower (t : String)
    (hAZ : ∀ c ∈ t.data, c ∈ upperSpaceChars)
    (hEx : ∃ c ∈ t.data, c ∈ upperChars) :
    normalizeText (pyLower t) true = pyLower t := by
  rw [normalizeText_true, if_neg]
  intro hcond
  rcases (Bool.or_eq_true _ _).mp hcond with h | h
  · rw [pyIsUpper_pyLower_false t hAZ hEx] at h
    exact absurd h (by decide)
  · rcases (Bool.and_eq_true _ _).mp h with ⟨h1, _⟩
    have h3 := of_decide_eq_true h1
    rw [countUpper_pyLower t hAZ] at h3
    omega

/-- Claim C7: with normalization enabled, the text is lowercased exactly
when it is fully uppercase, or more than 80 percent of its Latin letters
are uppercase and its length exceeds 5, and is returned unchanged
otherwise; consequently, an all-uppercase Latin string (letters with
spaces, at least one letter, length over 5) is detected exactly like its
lowercase equivalent. -/
theorem c7_uppercase_normalization :
    (∀ t : String, (specUppercaseCond t → normalizeText t true = pyLower t) ∧
      (¬ specUppercaseCond t → normalizeText t true = t)) ∧
    (∀ (env : LoadEnv) (st : DetectorState) (t : String) (lm : Bool),
      st.config.normalize_input = true →
      (∀ c ∈ t.data, c ∈ upperSpaceChars) →
      (∃ c ∈ t.data, c ∈ upperChars) →
      5 < t.length →
      detectOp env st t lm = detectOp env st (pyLower t) lm) := by
  constructor
  · intro t
    constructor
    · intro hc
      rw [normalizeText_true, if_pos]
      rcases hc with h | ⟨h1, h2⟩
      · simp [h]
      · simp [h1, h2]
    · intro hnc
      rw [normalizeText_true, if_neg]
      intro hcond
      apply hnc
      rcases (Bool.or_eq_true _ _).mp hcond with h | h
      · exact Or.inl h
      · rcases (Bool.and_eq_true _ _).mp h with ⟨h1, h2⟩
        exact Or.inr ⟨of_decide_eq_true h1, of_decide_eq_true h2⟩
  · intro env st t lm hnorm hAZ hEx hlen
    have hnl : '\n' ∉ t.data := fun hmem => upperSpace_not_newline '\n' (hAZ _ hmem) rfl
    have hnl2 : '\n' ∉ (pyLower t).data := by
      intro hmem
      rcases List.mem_map.mp hmem with ⟨c, hc, hfc⟩
      exact upperSpace_toLower_ne_newline c (hAZ c hc) hfc
    have hppt : preprocessText t = t := by
      simp only [preprocessText]
      rw [if_neg hnl]
    have hppl : preprocessText (pyLower t) = pyLower t := by
      simp only [preprocessText]
      rw [if_neg hnl2]
    have hnorm1 : normalizeText t true = pyLower t := by
      rw [normalizeText_true, if_pos]
      simp [pyIsUpper_of_upperSpace t hAZ hEx]
    have hlow := normalizeText_pyLower t hAZ hEx
    rcases hg : getModel env st lm with ⟨r, st1, n⟩
    have hst1 : st1.config.normalize_input = true := by
      have hagree := getModel_config_agree env st lm
      rw [hg] at hagree
      obtain ⟨_, _, _, _, _, h6⟩ := hagree
      exact h6 ▸ hnorm
    cases r with
    | error e => simp [detectOp, hg]
    | ok m =>
      simp only [detectOp, hg]
      rw [hst1, hppt, hppl, hnorm1, hlow]

/-- Witness for claim C7 at a concrete input. -/
theorem c7_uppercase_normalization_witness :
    detectOp
        { loadLocal := fun _ => Except.ok 7, loadWithDownload := fun _ _ => Except.ok 8,
          predictOne := fun _ _ => Except.ok (["__label__en"], [(9 : Rat) / 10]),
          predictTopK := fun _ _ _ _ => Except.ok ([], []) }
        { config :=
            { cache_dir := "/tmp/fasttext-langdetect", custom_model_path := none,
              proxy := none, allow_fallback := true, disable_verify := false,
              verify_hash := none, normalize_input := true },
          modelsLow := none, modelsHigh := none }
        "HELLO WORLD" true =
      detectOp
        { loadLocal := fun _ => Except.ok 7, loadWithDownload := fun _ _ => Except.ok 8,
          predictOne := fun _ _ => Except.ok (["__label__en"], [(9 : Rat) / 10]),
          predictTopK := fun _ _ _ _ => Except.ok ([], []) }
        { config :=
            { cache_dir := "/tmp/fasttext-langdetect", custom_model_path := none,
              proxy := none, allow_fallback := true, disable_verify := false,
              verify_hash := none, normalize_input := true },
          modelsLow := none, modelsHigh := none }
        (pyLower "HELLO WORLD") true :=
  c7_uppercase_normalization.2 _ _ "HELLO WORLD" true rfl (by decide) (by decide) (by decide)

/-! ### Claim C9: multilingual results -/

theorem removeAllF_no_sub (pat : List Char) : ∀ (fuel : Nat) (s : List Char),
    hasSub pat s = false → removeAllF pat fuel s = s := by
  intro fuel
  induction fuel with
  | zero =>
    intro s h
    cases s with
    | nil => rfl
    | cons c cs => rfl
  | succ fuel ih =>
    intro s h
    cases s with
    | nil => rfl
    | cons c cs =>
      cases hp : List.isPrefixOf pat (c :: cs) with
      | true =>
        rw [hasSub, hp, Bool.true_or] at h
        exact absurd h (by decide)
      | false =>
        rw [hasSub, hp, Bool.false_or] at h
        simp only [removeAllF]
        rw [if_neg (by rw [hp]; exact Bool.false_ne_true)]
        rw [ih cs h]

theorem isPrefixOf_self_append (l r : List Char) : List.isPrefixOf l (l ++ r) = true := by
  induction l with
  | nil => simp [List.isPrefixOf]
  | cons x l ih => simp [List.isPrefixOf, ih]

theorem removeAllF_strip (a : Char) (pat' : List Char) (fuel : Nat) (rest : List Char)
    (h : hasSub (a :: pat') rest = false) :
    removeAllF (a :: pat') (fuel + 1) ((a :: pat') ++ rest) = rest := by
  have hpre : List.isPrefixOf (a :: pat') (a :: (pat' ++ rest)) = true := by
    rw [← List.cons_append]
    exact isPrefixOf_self_append (a :: pat') rest
  rw [List.cons_append]
  simp only [removeAllF]
  rw [if_pos hpre]
  have hdrop : (a :: (pat' ++ rest) : List Char).drop (a :: pat').length = rest := by
    rw [← List.cons_append, List.drop_left]
  rw [hdrop]
  exact removeAllF_no_sub (a :: pat') fuel rest h

theorem stripLabel_wellformed (c : String) (h : hasSub labelMark c.data = false) :
    stripLabel ("__label__" ++ c) = c := by
  simp only [stripLabel]
  have hlen : (("__label__" ++ c).data).length = (c.data.length + 8) + 1 := by
    have hd : ("__label__" ++ c).data = labelMark ++ c.data := rfl
    rw [hd, List.length_append]
    simp only [labelMark, List.length_cons, List.length_nil]
    omega
  rw [hlen]
  have hrem : removeAllF labelMark ((c.data.length + 8) + 1) (("__label__" ++ c).data)
      = c.data := by
    have hd : ("__label__" ++ c).data = labelMark ++ c.data := rfl
    rw [hd]
    exact removeAllF_strip '_' ['_', 'l', 'a', 'b', 'e', 'l', '_', '_']
      (c.data.length + 8) c.data h
  rw [hrem]

theorem sortByScoreDesc_sorted (l : List Detection) :
    List.Sorted scoreGe (sortByScoreDesc l) :=
  List.sorted_insertionSort scoreGe l

theorem sortByScoreDesc_perm (l : List Detection) : (sortByScoreDesc l).Perm l :=
  List.perm_insertionSort scoreGe l

/-- Claim C9: whenever `detect_multilingual` succeeds and the classifier
honors its interface (it returns at most `k` labels, non-negative scores,
and labels of the form `"__label__"` followed by a marker-free code), the
returned sequence has between 0 and `k` results, each label has the
classifier-internal `"__label__"` marker stripped, each score is clamped
into `[0, 1]` (scores above 1 are clamped, not rejected), and the sequence
is sorted by non-increasing score. -/
theorem c9_multilingual_results (env : LoadEnv) (st : DetectorState) (text : String)
    (lm : Bool) (k : Nat) (threshold : Rat) (res : List Detection) (st1 : DetectorState)
    (n : Nat) (hk : 1 ≤ k)
    (hcls : ∀ (m : Model) (s : String) (labels : List String) (scores : List Rat),
      env.predictTopK m s k threshold = Except.ok (labels, scores) →
      labels.length ≤ k ∧ (∀ q ∈ scores, 0 ≤ q) ∧
      (∀ lb ∈ labels, ∃ c : String, lb = "__label__" ++ c ∧ hasSub labelMark c.data = false))
    (hrun : detectMultiOp env st text lm k threshold = (Except.ok res, st1, n)) :
    res.length ≤ k ∧
    (∀ d ∈ res, 0 ≤ d.score ∧ d.score ≤ 1 ∧ hasSub labelMark d.lang.data = false) ∧
    List.Sorted scoreGe res := by
  rcases hg : getModel env st lm with ⟨r, st2, n2⟩
  simp only [detectMultiOp, hg] at hrun
  cases r with
  | error e => simp at hrun
  | ok m =>
    dsimp only at hrun
    cases hp : env.predictTopK m
        (normalizeText (preprocessText text) st2.config.normalize_input) k threshold with
    | error e =>
      rw [hp] at hrun
      simp at hrun
    | ok pr =>
      rcases pr with ⟨labels, scores⟩
      rw [hp] at hrun
      dsimp only at hrun
      simp only [Prod.mk.injEq, Except.ok.injEq] at hrun
      obtain ⟨hres, hst, hn⟩ := hrun
      obtain ⟨hlab, hsc, hwf⟩ := hcls m _ labels scores hp
      subst hres
      refine ⟨?_, ?_, sortByScoreDesc_sorted _⟩
      · have hperm := sortByScoreDesc_perm
          ((labels.zip scores).map fun p => Detection.mk (stripLabel p.1) (min p.2 1))
        rw [hperm.length_eq, List.length_map, List.length_zip]
        exact le_trans (le_trans (min_le_left _ _) (le_refl _)) hlab
      · intro d hd
        have hperm := sortByScoreDesc_perm
          ((labels.zip scores).map fun p => Detection.mk (stripLabel p.1) (min p.2 1))
        have hd2 := hperm.mem_iff.mp hd
        rcases List.mem_map.mp hd2 with ⟨⟨lb, q⟩, hpair, rfl⟩
        have hmem := List.of_mem_zip hpair
        refine ⟨?_, min_le_right _ _, ?_⟩
        · exact le_min (hsc q hmem.2) (by norm_num)
        · rcases hwf lb hmem.1 with ⟨c, rfl, hc⟩
          show hasSub labelMark (stripLabel ("__label__" ++ c)).data = false
          rw [stripLabel_wellformed c hc]
          exact hc

/-- Witness for claim C9 at a concrete input (the classifier emitting a
score above 1, which is clamped to 1). -/
theorem c9_multilingual_results_witness :
    ([Detection.mk "en" 1, Detection.mk "fr" 1]).length ≤ 2 ∧
    (∀ d ∈ [Detection.mk "en" 1, Detection.mk "fr" 1],
      0 ≤ d.score ∧ d.score ≤ 1 ∧ hasSub labelMark d.lang.data = false) ∧
    List.Sorted scoreGe [Detection.mk "en" 1, Detection.mk "fr" 1] :=
  c9_multilingual_results
    { loadLocal := fun _ => Except.ok 7, loadWithDownload := fun _ _ => Except.ok 8,
      predictOne := fun _ _ => Except.ok ([], []),
      predictTopK := fun _ _ _ _ =>
        Except.ok (["__label__en", "__label__fr"], [(2 : Rat), (1 : Rat)]) }
    { config :=
        { cache_dir := "/tmp/fasttext-langdetect", custom_model_path := none,
          proxy := none, allow_fallback := true, disable_verify := false,
          verify_hash := none, normalize_input := true },
      modelsLow := none, modelsHigh := none }
    "hola" false 2 0
    [Detection.mk "en" 1, Detection.mk "fr" 1]
    { config :=
        { cache_dir := "/tmp/fasttext-langdetect", custom_model_path := none,
          proxy := none, allow_fallback := true, disable_verify := false,
          verify_hash := some VERIFY_FASTTEXT_LARGE_MODEL, normalize_input := true },
      modelsLow := none, modelsHigh := some 8 }
    1
    (by decide)
    (by
      intro m s labels scores h
      injection h with h2
      injection h2 with hl hs
      subst hl
      subst hs
      refine ⟨by decide, by decide, ?_⟩
      intro lb hlb
      rcases List.mem_cons.mp hlb with rfl | hlb
      · exact ⟨"en", by decide, by decide⟩
      rcases List.mem_cons.mp hlb with rfl | hlb
      · exact ⟨"fr", by decide, by decide⟩
      · exact absurd hlb (List.not_mem_nil lb))
    (by decide)

/-! ### Claim C3: cache-directory handling in the downloader -/

/-- Claim C3, counterexample: for a destination inside a caller-supplied
cache directory that does not exist (`dirExists` is false everywhere, and
the directory differs from the default cache root), the download code does
not fail fast with a not-found error: with an external fetch that creates
directories and succeeds — the behavior of the `robust_downloader`
dependency — the operation succeeds outright, and with a failing external
fetch it surfaces a generic `DetectError("Download failed: ...")`, not a
not-found condition. -/
theorem c3_cache_dir_counterexample :
    downloadModel
        { fileExists := fun _ => false, dirExists := fun _ => false,
          fetch := fun _ _ _ _ => Except.ok (fun _ => true) }
        "https://dl.fbaipublicfiles.com/fasttext/supervised-models/lid.176.bin"
        ⟨"/home/user/custom-cache", "lid.176.bin"⟩ none = Except.ok () ∧
    downloadModel
        { fileExists := fun _ => false, dirExists := fun _ => false,
          fetch := fun _ _ _ _ => Except.error "permission denied" }
        "https://dl.fbaipublicfiles.com/fasttext/supervised-models/lid.176.bin"
        ⟨"/home/user/custom-cache", "lid.176.bin"⟩ none =
      Except.error
        (PyErr.detectError "fast-langdetect: Download failed: permission denied" none) := by
  constructor
  · rfl
  · rfl

/-- Claim C3 (amended): the download step performs no existence check on
the destination directory and never distinguishes the default cache root
from a caller-supplied one — its outcome depends only on the destination
file's existence and the external fetch (it is independent of `dirExists`);
when the destination file is absent, the external fetch alone decides the
outcome, and a fetch failure surfaces as a generic download `DetectError`,
never as a not-found error. -/
theorem c3_download_amended (env env2 : DLEnv) (url : String) (p : MPath)
    (proxy : Option String)
    (hfe : env.fileExists = env2.fileExists) (hf : env.fetch = env2.fetch) :
    downloadModel env url p proxy = downloadModel env2 url p proxy ∧
    (env.fileExists p = false →
      downloadModel env url p proxy =
        (match env.fetch url p.dir p.file proxy with
         | Except.ok _ => Except.ok ()
         | Except.error e =>
           Except.error (PyErr.detectError ("fast-langdetect: Download failed: " ++ e) none)) ∧
      ∀ msg : String, downloadModel env url p proxy ≠
        Except.error (PyErr.base (PyBase.fileNotFound msg))) := by
  constructor
  · simp only [downloadModel, hfe, hf]
  · intro h
    have hcond : ¬ (env.fileExists p = true) := by
      rw [h]
      exact Bool.false_ne_true
    constructor
    · simp only [downloadModel]
      rw [if_neg hcond]
    · intro msg hcontra
      simp only [downloadModel] at hcontra
      rw [if_neg hcond] at hcontra
      cases hfetch : env.fetch url p.dir p.file proxy with
      | ok fs =>
        rw [hfetch] at hcontra
        simp at hcontra
      | error e =>
        rw [hfetch] at hcontra
        simp at hcontra

/-- Witness for the amended claim C3 at a concrete input: two environments
differing only in directory existence give the same outcome. -/
theorem c3_download_amended_witness :
    downloadModel
        { fileExists := fun _ => false, dirExists := fun _ => true,
          fetch := fun _ _ _ _ => Except.error "network unreachable" }
        "https://example.com/model" ⟨"/srv/cache", "lid.176.bin"⟩ none =
      downloadModel
        { fileExists := fun _ => false, dirExists := fun _ => false,
          fetch := fun _ _ _ _ => Except.error "network unreachable" }
        "https://example.com/model" ⟨"/srv/cache", "lid.176.bin"⟩ none :=
  (c3_download_amended _ _ _ _ _ rfl rfl).1

end FastLangdetect
